import Mathlib

set_option maxHeartbeats 1000000
set_option maxRecDepth 100000

/-!
Formal model of the WhatsApp link logger (src/app.py and src/main.py).

Text is modelled as List Char.  Every outbound HTTP call (the HuggingFace,
Ollama and OpenAI summarisation backends, the page-title fetch, the sheet
append, the Twilio send) is modelled by an oracle value describing the final
outcome of the call, because the Python code wraps each of them in a
try/except and only the final outcome influences control flow.
-/

/-! ## Python string primitives -/

-- Python str.split() with no separator: split on runs of whitespace,
-- discarding empty pieces.  The accumulator holds the word being read.
def pySplitGo : List Char → List Char → List (List Char)
  | [], acc => if acc = [] then [] else [acc]
  | c :: cs, acc =>
    if c.isWhitespace then
      if acc = [] then pySplitGo cs [] else acc :: pySplitGo cs []
    else
      pySplitGo cs (acc ++ [c])

def pySplit (l : List Char) : List (List Char) := pySplitGo l []

-- Python sep.join(words) for sep a single space.
def joinWords : List (List Char) → List Char
  | [] => []
  | [w] => w
  | w :: ws => w ++ ' ' :: joinWords ws

-- Python str.strip(): drop whitespace from both ends.
def pyStrip (l : List Char) : List Char :=
  ((l.dropWhile Char.isWhitespace).reverse.dropWhile Char.isWhitespace).reverse

-- Python s.replace(pat, ""): remove every occurrence of pat, scanning left to
-- right without overlap.  The counter k is the number of characters still to
-- be skipped from the most recent match.
def pyRemoveGo (pat : List Char) : List Char → Nat → List Char
  | [], _ => []
  | _ :: cs, k + 1 => pyRemoveGo pat cs k
  | c :: cs, 0 =>
    if pat ≠ [] ∧ pat.isPrefixOf (c :: cs) then pyRemoveGo pat cs (pat.length - 1)
    else c :: pyRemoveGo pat cs 0

def pyRemove (pat l : List Char) : List Char := pyRemoveGo pat l 0

-- True when the list contains no whitespace character.
def noWsB (l : List Char) : Bool := l.all (fun c => !c.isWhitespace)

-- Number of whitespace-separated words of a text, as Python str.split counts.
def wordCount (l : List Char) : Nat := (pySplit l).length

/-! ## Link Extractor (url_pattern and findall, app.py line 36, main.py line 36)

The regex is raw "http[s]?://(?:[a-zA-Z]|[0-9]|[$-_@.&+]|[!*\\(\\),]|(?:%[0-9a-fA-F][0-9a-fA-F]))+".
Inside the class, the dollar-to-underscore token is a character RANGE covering
codes 0x24 to 0x5F.  The percent-escape alternative never fires on its own
because a bare percent sign, code 0x25, already lies in that range, so each
repetition of the group consumes exactly one character of the set below and a
match is a scheme head followed by a maximal nonempty run of such characters. -/

def isUrlChar (c : Char) : Bool :=
  c.isAlpha || c.isDigit
  || (decide ('$' ≤ c) && decide (c ≤ '_'))
  || c = '@' || c = '.' || c = '&' || c = '+'
  || c = '!' || c = '*' || c = '\\' || c = '(' || c = ')' || c = ','
  || c = '%'

def httpsHead : List Char := ['h', 't', 't', 'p', 's', ':', '/', '/']

def httpHead : List Char := ['h', 't', 't', 'p', ':', '/', '/']

-- Try to match the url regex at the start of l: a scheme head, the optional s
-- taken greedily, then a maximal nonempty run of characters accepted by p.
-- Returns the match together with the remaining input.
def matchUrlAt (p : Char → Bool) (l : List Char) : Option (List Char × List Char) :=
  if httpsHead.isPrefixOf l then
    if (l.drop 8).takeWhile p = [] then none
    else some (httpsHead ++ (l.drop 8).takeWhile p, (l.drop 8).dropWhile p)
  else if httpHead.isPrefixOf l then
    if (l.drop 7).takeWhile p = [] then none
    else some (httpHead ++ (l.drop 7).takeWhile p, (l.drop 7).dropWhile p)
  else none

-- re.findall: scan left to right, emitting each leftmost match and resuming
-- after it.  Fuel bounds the recursion; length of the input always suffices.
def findUrlsGo (p : Char → Bool) : Nat → List Char → List (List Char)
  | 0, _ => []
  | _ + 1, [] => []
  | fuel + 1, c :: cs =>
    match matchUrlAt p (c :: cs) with
    | some (m, rest) => m :: findUrlsGo p fuel rest
    | none => findUrlsGo p fuel cs

def findUrlsWith (p : Char → Bool) (l : List Char) : List (List Char) :=
  findUrlsGo p l.length l

-- self.url_pattern.findall(message_body)
def findUrls (l : List Char) : List (List Char) := findUrlsWith isUrlChar l

/-! ## urllib.parse.urlparse, the netloc component

generate_simple_summary (app.py line 165) only reads urlparse(url).netloc.
Python urlsplit removes tab, carriage return and newline characters, strips a
leading scheme, and when the remainder starts with two slashes takes the
netloc up to the first slash, question mark or hash; a netloc with an
unmatched square bracket raises ValueError, modelled as none. -/

def schemeChar (c : Char) : Bool :=
  c.isAlpha || c.isDigit || c = '+' || c = '-' || c = '.'

def removeUnsafe (l : List Char) : List Char :=
  l.filter (fun c => !(c = '\t' || c = '\r' || c = '\n'))

def headIsAlpha : List Char → Bool
  | [] => false
  | c :: _ => c.isAlpha

def splitSchemeUrl (l : List Char) : List Char :=
  match l.findIdx? (fun c => c = ':') with
  | none => l
  | some i =>
    if decide (0 < i) && headIsAlpha l && ((l.take i).drop 1).all schemeChar then
      l.drop (i + 1)
    else l

def splitNetlocStr (l : List Char) : List Char :=
  l.takeWhile (fun c => !(c = '/' || c = '?' || c = '#'))

-- The netloc text of url before the bracket validation.
def netlocRaw (url : List Char) : List Char :=
  splitNetlocStr ((splitSchemeUrl (removeUnsafe url)).drop 2)

def urlparseNetloc (url : List Char) : Option (List Char) :=
  if (splitSchemeUrl (removeUnsafe url)).take 2 = ['/', '/'] then
    if ((netlocRaw url).contains '[' && !(netlocRaw url).contains ']')
        || ((netlocRaw url).contains ']' && !(netlocRaw url).contains '[') then
      none
    else some (netlocRaw url)
  else some []

/-! ## Summarizer chain -/

-- Final outcome of one remote backend call: ok t is an HTTP 200 response whose
-- extracted text is t (after the JSON shape checks of the caller), fail is any
-- other status, malformed body, or exception.  The single retry that app.py
-- performs on status 503 is absorbed into the final outcome.
inductive BackendResult where
  | ok (text : List Char)
  | fail
deriving DecidableEq

-- app.py line 172
def common_words : List (List Char) :=
  ["the", "and", "or", "but", "in", "on", "at", "to", "for", "of",
   "with", "by", "is", "are", "was", "were", "a", "an"].map String.toList

-- generate_simple_summary (app.py lines 159 to 178).  Only the urlparse call
-- can raise inside the try block; that exception path returns "content logged".
def generate_simple_summary (content : List Char) (url : Option (List Char)) : List Char :=
  match url with
  | some u =>
    match urlparseNetloc u with
    | some domain =>
      let domain_words :=
        pyRemove ".net".toList (pyRemove ".org".toList
          (pyRemove ".com".toList (pyRemove "www.".toList domain)))
      domain_words ++ " link shared".toList
    | none => "content logged".toList
  | none =>
    let words := pySplit (content.map Char.toLower)
    let keywords :=
      (words.filter (fun w => decide (3 < w.length) && !common_words.contains w)).take 4
    if keywords = [] then "message received".toList else joinWords keywords

-- generate_summary_with_huggingface (app.py lines 98 to 157).  On a usable 200
-- response the text is stripped, split, cut to five words and rejoined, with
-- "Summary generated" when no word remains; every failure falls back to
-- generate_simple_summary.  The prompt, built from the page title fetch, only
-- influences the oracle outcome and is absorbed into it.
def generate_summary_with_huggingface (hf : BackendResult)
    (content : List Char) (url : Option (List Char)) : List Char :=
  match hf with
  | .ok t =>
    let words := (pySplit (pyStrip t)).take 5
    if words = [] then "Summary generated".toList else joinWords words
  | .fail => generate_simple_summary content url

-- generate_summary_with_openai (app.py lines 180 to 205, main.py lines 134 to
-- 159).  On success the completion is stripped, split, cut to five words and
-- rejoined with no nonemptiness guard; on failure it returns the literal
-- "Summary unavailable".
def generate_summary_with_openai (oa : BackendResult)
    (content : List Char) (url : Option (List Char)) : List Char :=
  match oa with
  | .ok t => joinWords ((pySplit (pyStrip t)).take 5)
  | .fail => "Summary unavailable".toList

-- generate_summary_with_ollama (main.py lines 98 to 132).  On a 200 response
-- the text is stripped, split, cut to five words and rejoined with no
-- nonemptiness guard; anything else falls back to generate_summary_with_openai.
def generate_summary_with_ollama (ol oa : BackendResult)
    (content : List Char) (url : Option (List Char)) : List Char :=
  match ol with
  | .ok t => joinWords ((pySplit (pyStrip t)).take 5)
  | .fail => generate_summary_with_openai oa content url

/-! ## Message Processor (process_message, app.py lines 234 to 270) -/

-- One call to log_to_spreadsheet made by process_message, recording the
-- arguments of the call.
structure LoggedEvent where
  message_type : List Char
  content : List Char
  url : Option (List Char)
  summary : List Char
  sender : List Char
deriving DecidableEq

-- process_message, parametrised by the bound summariser method (the chain
-- entry is generate_summary_with_huggingface in app.py and
-- generate_summary_with_ollama in main.py).  Returns the list of logging
-- calls made, in order, together with the reply text.
def process_message (summarize : List Char → Option (List Char) → List Char)
    (message_body sender_number : List Char) : List LoggedEvent × List Char :=
  let urls := findUrls message_body
  if urls = [] then
    ([{ message_type := "Message".toList, content := message_body, url := none,
        summary := summarize message_body none, sender := sender_number }],
     "✅ Message logged to your spreadsheet!".toList)
  else
    (urls.map (fun url =>
      { message_type := "Link".toList, content := message_body, url := some url,
        summary := summarize message_body (some url), sender := sender_number }),
     "✅ Logged ".toList ++ (Nat.repr urls.length).toList
       ++ " link(s) to your spreadsheet!".toList)

/-! ## Row Builder and Log Sink (log_to_spreadsheet, app.py lines 207 to 232) -/

structure SheetRow where
  date : List Char
  time : List Char
  message_type : List Char
  content : List Char
  url : List Char
  summary : List Char
  sender : List Char
deriving DecidableEq

-- The row built at app.py lines 218 to 226: content is cut to its first 500
-- characters, a missing or empty url becomes the empty string.
def sheet_row (date_str time_str message_type content : List Char)
    (url : Option (List Char)) (summary sender : List Char) : SheetRow :=
  { date := date_str, time := time_str, message_type := message_type,
    content := content.take 500, url := url.getD [], summary := summary,
    sender := sender }

-- Outcome of one sheet.append_row call: ok, or an exception from the transport
-- which the except block swallows.
inductive AppendOutcome where
  | ok
  | transportError
deriving DecidableEq

-- The sheet handle: available is false when setup_google_sheets failed and
-- self.sheet is None; rows are the appended rows.
structure SheetState where
  available : Bool
  rows : List SheetRow
deriving DecidableEq

def log_to_spreadsheet (st : SheetState) (outcome : AppendOutcome)
    (date_str time_str message_type content : List Char)
    (url : Option (List Char)) (summary sender : List Char) : SheetState :=
  if st.available = false then st
  else
    match outcome with
    | .ok => { st with rows := st.rows ++
        [sheet_row date_str time_str message_type content url summary sender] }
    | .transportError => st

-- process_message again, now threading the sheet state through each
-- log_to_spreadsheet call; outcomes gives the transport outcome of the i-th
-- append of this message and date_str, time_str the wall clock strings.
def process_message_sheet (summarize : List Char → Option (List Char) → List Char)
    (outcomes : Nat → AppendOutcome) (date_str time_str : List Char)
    (st : SheetState) (message_body sender_number : List Char) :
    SheetState × List Char :=
  let urls := findUrls message_body
  if urls = [] then
    (log_to_spreadsheet st (outcomes 0) date_str time_str "Message".toList
       message_body none (summarize message_body none) sender_number,
     "✅ Message logged to your spreadsheet!".toList)
  else
    (urls.enum.foldl (fun s p =>
        log_to_spreadsheet s (outcomes p.1) date_str time_str "Link".toList
          message_body (some p.2) (summarize message_body (some p.2)) sender_number) st,
     "✅ Logged ".toList ++ (Nat.repr urls.length).toList
       ++ " link(s) to your spreadsheet!".toList)

/-! ## Webhook endpoint (app.py lines 287 to 306) -/

structure WebhookForm where
  bodyField : Option (List Char)
  fromField : Option (List Char)
deriving DecidableEq

inductive WebhookResponse where
  | success
  | error (message : List Char)
deriving DecidableEq

structure WebhookResult where
  st : SheetState
  sent : List (List Char × List Char)
  status : Nat
  response : WebhookResponse
deriving DecidableEq

-- The webhook handler: read Body and From with empty-string defaults, strip
-- every "whatsapp:" occurrence from the sender, and only when both strings
-- are nonempty process the message and send the reply.  It answers 200 with
-- a success payload in all these cases.
-- The sender string after stripping the transport scheme.
def webhookSender (form : WebhookForm) : List Char :=
  pyRemove "whatsapp:".toList (form.fromField.getD [])

def webhook (summarize : List Char → Option (List Char) → List Char)
    (outcomes : Nat → AppendOutcome) (date_str time_str : List Char)
    (st : SheetState) (form : WebhookForm) : WebhookResult :=
  if form.bodyField.getD [] ≠ [] ∧ webhookSender form ≠ [] then
    { st := (process_message_sheet summarize outcomes date_str time_str st
               (form.bodyField.getD []) (webhookSender form)).1,
      sent := [(webhookSender form,
                (process_message_sheet summarize outcomes date_str time_str st
                  (form.bodyField.getD []) (webhookSender form)).2)],
      status := 200, response := .success }
  else
    { st := st, sent := [], status := 200, response := .success }

/-! ## Definitions taken from the wording of the specification -/

-- The character set exactly as claim C7 words it: letters, digits, and the
-- symbols dollar, hyphen, underscore, at, dot, ampersand, plus, bang, star,
-- apostrophe, parentheses and comma.  Percent escapes are handled by the
-- claim as three-character units and play no role below.
def specUrlChar (c : Char) : Bool :=
  c.isAlpha || c.isDigit
  || c = '$' || c = '-' || c = '_' || c = '@' || c = '.' || c = '&' || c = '+'
  || c = '!' || c = '*' || c = Char.ofNat 39 || c = '(' || c = ')' || c = ','

-- The no-url local fallback exactly as claim C6 words it: lower-case, split on
-- whitespace, drop the stop words, keep only words longer than three
-- characters, take the first four, join with single spaces, and return
-- "message received" when no word remains.
def specLocalSummary (content : List Char) : List Char :=
  let lowered := content.map Char.toLower
  let ws := pySplit lowered
  let noStop := ws.filter (fun w => !common_words.contains w)
  let longs := noStop.filter (fun w => decide (3 < w.length))
  let first4 := longs.take 4
  if first4 = [] then "message received".toList else joinWords first4

-- The extraction semantics claim C7 words: the scan moves left to right over
-- the text; at a position where no match of the pattern begins it advances by
-- one character emitting nothing, and at a position where the pattern matches
-- (the match being the scheme head followed by the maximal nonempty run, as
-- matchUrlAt produces it) it emits that substring and resumes right after it,
-- so every occurrence is emitted, in order of first appearance and with
-- duplicates preserved.  UrlScan p l us holds when us is an outcome of this
-- scan of l; the scan is deterministic, so us is unique, and together with
-- the proof that findUrls satisfies UrlScan this pins the output down whole.
inductive UrlScan (p : Char → Bool) : List Char → List (List Char) → Prop where
  | nil : UrlScan p [] []
  | advance (c : Char) (cs : List Char) (us : List (List Char)) :
      matchUrlAt p (c :: cs) = none → UrlScan p cs us → UrlScan p (c :: cs) us
  | emit (l m rest : List Char) (us : List (List Char)) :
      matchUrlAt p l = some (m, rest) → UrlScan p rest us →
      UrlScan p l (m :: us)

/-! ## Properties of the word splitter -/

theorem pySplitGo_mem : ∀ (l acc : List Char), noWsB acc = true →
    ∀ w ∈ pySplitGo l acc, w ≠ [] ∧ noWsB w = true := by
  intro l
  induction l with
  | nil =>
    intro acc hacc w hw
    simp only [pySplitGo] at hw
    split at hw
    · simp at hw
    · next hne =>
      simp only [List.mem_singleton] at hw
      subst hw
      exact ⟨hne, hacc⟩
  | cons c cs ih =>
    intro acc hacc w hw
    simp only [pySplitGo] at hw
    split at hw
    · split at hw
      · exact ih [] rfl w hw
      · next hne =>
        rcases List.mem_cons.mp hw with h | h
        · subst h
          exact ⟨hne, hacc⟩
        · exact ih [] rfl w h
    · next hc =>
      refine ih (acc ++ [c]) ?_ w hw
      simp only [noWsB, List.all_append, List.all_cons, List.all_nil,
        Bool.and_true, Bool.and_eq_true, Bool.not_eq_true'] at hacc ⊢
      exact ⟨hacc, by simpa using hc⟩

theorem pySplit_mem {l w : List Char} (hw : w ∈ pySplit l) :
    w ≠ [] ∧ noWsB w = true :=
  pySplitGo_mem l [] rfl w hw

theorem pySplitGo_append_word : ∀ (w : List Char), noWsB w = true →
    ∀ (rest acc : List Char), pySplitGo (w ++ rest) acc = pySplitGo rest (acc ++ w) := by
  intro w
  induction w with
  | nil => intro _ rest acc; simp
  | cons c cw ih =>
    intro h rest acc
    have h2 : c.isWhitespace = false ∧ noWsB cw = true := by
      simpa [noWsB, Bool.not_eq_true'] using h
    simp only [List.cons_append, pySplitGo, h2.1, Bool.false_eq_true, if_false]
    have h3 := ih h2.2 rest (acc ++ [c])
    simpa [List.append_assoc] using h3

theorem pySplit_joinWords : ∀ (ws : List (List Char)),
    (∀ w ∈ ws, w ≠ [] ∧ noWsB w = true) → pySplit (joinWords ws) = ws := by
  intro ws
  induction ws with
  | nil => intro _; rfl
  | cons w ws ih =>
    intro h
    have hw := h w (List.mem_cons_self w ws)
    cases ws with
    | nil =>
      show pySplitGo (joinWords [w]) [] = [w]
      have hj : joinWords [w] = w := rfl
      rw [hj, ← List.append_nil w, pySplitGo_append_word w hw.2 [] []]
      simp [pySplitGo, hw.1]
    | cons w2 ws2 =>
      have hj : joinWords (w :: w2 :: ws2) = w ++ ' ' :: joinWords (w2 :: ws2) := rfl
      show pySplit (joinWords (w :: w2 :: ws2)) = w :: w2 :: ws2
      unfold pySplit
      rw [hj, pySplitGo_append_word w hw.2 (' ' :: joinWords (w2 :: ws2)) []]
      simp only [List.nil_append]
      have hsp : (' ' : Char).isWhitespace = true := rfl
      simp only [pySplitGo, hsp, if_true, hw.1, if_false]
      have := ih (fun x hx => h x (List.mem_cons_of_mem w hx))
      simpa [pySplit, hw.1] using congrArg (List.cons w) this

theorem joinWords_ne_nil : ∀ (ws : List (List Char)), ws ≠ [] →
    (∀ w ∈ ws, w ≠ []) → joinWords ws ≠ [] := by
  intro ws hne h
  match ws with
  | [] => exact absurd rfl hne
  | [w] => exact h w (List.mem_cons_self w [])
  | w :: w2 :: ws2 =>
    show w ++ ' ' :: joinWords (w2 :: ws2) ≠ []
    exact List.append_ne_nil_of_right_ne_nil w (by simp)

theorem wordCount_joinWords_take (t : List Char) (n : Nat) :
    wordCount (joinWords ((pySplit t).take n)) ≤ n := by
  have hmem : ∀ w ∈ (pySplit t).take n, w ≠ [] ∧ noWsB w = true :=
    fun w hw => pySplit_mem (List.take_subset n _ hw)
  unfold wordCount
  rw [pySplit_joinWords _ hmem, List.length_take]
  exact min_le_left _ _

-- pySplit of a whitespace-free text followed by a space and a tail.
theorem pySplit_append_space {dw : List Char} (h : noWsB dw = true) (tail : List Char) :
    pySplit (dw ++ ' ' :: tail) =
      if dw = [] then pySplit tail else dw :: pySplit tail := by
  unfold pySplit
  rw [pySplitGo_append_word dw h (' ' :: tail) []]
  simp only [List.nil_append]
  have hsp : (' ' : Char).isWhitespace = true := rfl
  simp only [pySplitGo, hsp, if_true]

/-! ## Subset properties of removal and parsing -/

theorem noWsB_mono {l l2 : List Char} (hsub : l2 ⊆ l) (h : noWsB l = true) :
    noWsB l2 = true := by
  simp only [noWsB, List.all_eq_true] at h ⊢
  exact fun c hc => h c (hsub hc)

theorem pyRemoveGo_subset (pat : List Char) : ∀ (l : List Char) (k : Nat) (c : Char),
    c ∈ pyRemoveGo pat l k → c ∈ l := by
  intro l
  induction l with
  | nil => intro k c h; simp [pyRemoveGo] at h
  | cons a as ih =>
    intro k c h
    cases k with
    | succ k2 =>
      simp only [pyRemoveGo] at h
      exact List.mem_cons_of_mem a (ih k2 c h)
    | zero =>
      simp only [pyRemoveGo] at h
      split at h
      · exact List.mem_cons_of_mem a (ih _ c h)
      · rcases List.mem_cons.mp h with h2 | h2
        · exact h2 ▸ List.mem_cons_self a as
        · exact List.mem_cons_of_mem a (ih 0 c h2)

theorem pyRemove_subset (pat l : List Char) : pyRemove pat l ⊆ l :=
  fun _ hc => pyRemoveGo_subset pat l 0 _ hc

theorem splitSchemeUrl_sublist (l : List Char) : List.Sublist (splitSchemeUrl l) l := by
  have h : splitSchemeUrl l = l ∨ ∃ i, splitSchemeUrl l = l.drop (i + 1) := by
    unfold splitSchemeUrl
    cases l.findIdx? (fun c => c = ':') with
    | none => exact Or.inl rfl
    | some i =>
      by_cases hc : (decide (0 < i) && headIsAlpha l
          && ((l.take i).drop 1).all schemeChar) = true
      · refine Or.inr ⟨i, ?_⟩
        show (if decide (0 < i) && headIsAlpha l
            && ((l.take i).drop 1).all schemeChar then l.drop (i + 1) else l)
          = l.drop (i + 1)
        rw [if_pos hc]
      · refine Or.inl ?_
        show (if decide (0 < i) && headIsAlpha l
            && ((l.take i).drop 1).all schemeChar then l.drop (i + 1) else l) = l
        rw [if_neg hc]
  rcases h with h | ⟨i, h⟩
  · rw [h]
  · rw [h]
    exact List.drop_sublist _ _

theorem netlocRaw_subset (url : List Char) : netlocRaw url ⊆ url := by
  unfold netlocRaw
  intro c hc
  have h1 := (List.takeWhile_sublist _).subset hc
  have h2 := (List.drop_sublist 2 _).subset h1
  have h3 := (splitSchemeUrl_sublist (removeUnsafe url)).subset h2
  exact (List.filter_sublist _).subset h3

theorem urlparseNetloc_subset {u d : List Char} (h : urlparseNetloc u = some d) :
    d ⊆ u := by
  unfold urlparseNetloc at h
  split at h
  · split at h
    · cases h
    · cases h
      exact netlocRaw_subset u
  · cases h
    exact List.nil_subset u

/-! ## Properties of the link extractor -/

theorem matchUrlAt_some {p : Char → Bool} {l m rest : List Char}
    (h : matchUrlAt p l = some (m, rest)) :
    l = m ++ rest ∧ m ≠ [] ∧
      ∃ run, (m = httpsHead ++ run ∨ m = httpHead ++ run) ∧ run ≠ []
        ∧ run.all p = true := by
  unfold matchUrlAt at h
  split at h
  · next hps =>
    split at h
    · cases h
    · next hrun =>
      simp only [Option.some.injEq, Prod.mk.injEq] at h
      obtain ⟨hm, hrest⟩ := h
      subst hm
      subst hrest
      rw [List.isPrefixOf_iff_prefix] at hps
      obtain ⟨t, ht⟩ := hps
      have hdrop : l.drop 8 = t := by
        rw [← ht]
        exact List.drop_left' rfl
      refine ⟨?_, by simp [httpsHead], ?_⟩
      · rw [hdrop, List.append_assoc, List.takeWhile_append_dropWhile, ht]
      · exact ⟨(l.drop 8).takeWhile p, Or.inl rfl, hrun, List.all_takeWhile⟩
  · split at h
    · next hps =>
      split at h
      · cases h
      · next hrun =>
        simp only [Option.some.injEq, Prod.mk.injEq] at h
        obtain ⟨hm, hrest⟩ := h
        subst hm
        subst hrest
        rw [List.isPrefixOf_iff_prefix] at hps
        obtain ⟨t, ht⟩ := hps
        have hdrop : l.drop 7 = t := by
          rw [← ht]
          exact List.drop_left' rfl
        refine ⟨?_, by simp [httpHead], ?_⟩
        · rw [hdrop, List.append_assoc, List.takeWhile_append_dropWhile, ht]
        · exact ⟨(l.drop 7).takeWhile p, Or.inr rfl, hrun, List.all_takeWhile⟩
    · cases h

theorem findUrlsGo_spec (p : Char → Bool) : ∀ (fuel : Nat) (l : List Char),
    l.length ≤ fuel → ∀ u ∈ findUrlsGo p fuel l,
      (∃ run, (u = httpsHead ++ run ∨ u = httpHead ++ run) ∧ run ≠ []
        ∧ run.all p = true)
      ∧ u <:+: l := by
  intro fuel
  induction fuel with
  | zero =>
    intro l hl u hu
    simp [findUrlsGo] at hu
  | succ fuel ih =>
    intro l hl u hu
    cases l with
    | nil => simp [findUrlsGo] at hu
    | cons c cs =>
      rw [findUrlsGo] at hu
      cases hm : matchUrlAt p (c :: cs) with
      | none =>
        rw [hm] at hu
        have hlen : cs.length ≤ fuel := by
          simp only [List.length_cons] at hl
          omega
        have hrec := ih cs hlen u hu
        exact ⟨hrec.1, hrec.2.trans (List.suffix_cons c cs).isInfix⟩
      | some pr =>
        obtain ⟨m, rest⟩ := pr
        rw [hm] at hu
        obtain ⟨hl2, hmne, hrun⟩ := matchUrlAt_some hm
        rcases List.mem_cons.mp hu with h | h
        · subst h
          exact ⟨hrun, List.IsPrefix.isInfix ⟨rest, hl2.symm⟩⟩
        · have hrest_len : rest.length ≤ fuel := by
            have hlen2 : (c :: cs).length = m.length + rest.length := by
              rw [hl2, List.length_append]
            have hm1 : 1 ≤ m.length := by
              cases m with
              | nil => exact absurd rfl hmne
              | cons x xs => simp
            simp only [List.length_cons] at hl hlen2
            omega
          have hrec := ih rest hrest_len u h
          exact ⟨hrec.1, hrec.2.trans (List.IsSuffix.isInfix ⟨m, hl2.symm⟩)⟩

-- The emitted match decomposes the input at its position and its run is
-- maximal: the remainder starts with a character the class rejects, when it
-- is nonempty at all.
theorem matchUrlAt_rest_head {p : Char → Bool} {l m rest : List Char}
    (h : matchUrlAt p l = some (m, rest)) :
    ∀ c, rest.head? = some c → p c = false := by
  unfold matchUrlAt at h
  split at h
  · split at h
    · cases h
    · simp only [Option.some.injEq, Prod.mk.injEq] at h
      obtain ⟨hm, hrest⟩ := h
      subst hrest
      intro c hc
      have h0 := List.head?_dropWhile_not p (l.drop 8)
      rw [hc] at h0
      exact h0
  · split at h
    · split at h
      · cases h
      · simp only [Option.some.injEq, Prod.mk.injEq] at h
        obtain ⟨hm, hrest⟩ := h
        subst hrest
        intro c hc
        have h0 := List.head?_dropWhile_not p (l.drop 7)
        rw [hc] at h0
        exact h0
    · cases h

theorem findUrlsGo_scan (p : Char → Bool) : ∀ (fuel : Nat) (l : List Char),
    l.length ≤ fuel → UrlScan p l (findUrlsGo p fuel l) := by
  intro fuel
  induction fuel with
  | zero =>
    intro l hl
    have h0 : l = [] := List.eq_nil_of_length_eq_zero (Nat.le_zero.mp hl)
    subst h0
    exact UrlScan.nil
  | succ fuel ih =>
    intro l hl
    cases l with
    | nil => exact UrlScan.nil
    | cons c cs =>
      cases hm : matchUrlAt p (c :: cs) with
      | none =>
        have hlen : cs.length ≤ fuel := by
          simp only [List.length_cons] at hl
          omega
        have heq : findUrlsGo p (fuel + 1) (c :: cs) = findUrlsGo p fuel cs := by
          simp only [findUrlsGo, hm]
        rw [heq]
        exact UrlScan.advance c cs _ hm (ih cs hlen)
      | some pr =>
        obtain ⟨m, rest⟩ := pr
        obtain ⟨hl2, hmne, -⟩ := matchUrlAt_some hm
        have hrest_len : rest.length ≤ fuel := by
          have hlen2 : (c :: cs).length = m.length + rest.length := by
            rw [hl2, List.length_append]
          have hm1 : 1 ≤ m.length := by
            cases m with
            | nil => exact absurd rfl hmne
            | cons x xs => simp
          simp only [List.length_cons] at hl hlen2
          omega
        have heq : findUrlsGo p (fuel + 1) (c :: cs)
            = m :: findUrlsGo p fuel rest := by
          simp only [findUrlsGo, hm]
        rw [heq]
        exact UrlScan.emit (c :: cs) m rest _ hm (ih rest hrest_len)

theorem findUrls_scan (l : List Char) : UrlScan isUrlChar l (findUrls l) :=
  findUrlsGo_scan isUrlChar l.length l (le_refl _)

-- The claimed scan is deterministic, so its outcome is unique.
theorem urlScan_unique {p : Char → Bool} : ∀ {l : List Char}
    {us vs : List (List Char)}, UrlScan p l us → UrlScan p l vs → us = vs := by
  intro l us vs h1
  induction h1 generalizing vs with
  | nil =>
    intro h2
    cases h2 with
    | nil => rfl
    | emit l m rest us2 hm hscan =>
      have hnone : matchUrlAt p [] = none := rfl
      rw [hnone] at hm
      simp at hm
  | advance c cs us hm hscan ih =>
    intro h2
    cases h2 with
    | advance _ _ _ hm2 hscan2 => exact ih hscan2
    | emit _ m rest us2 hm2 hscan2 =>
      rw [hm] at hm2
      simp at hm2
  | emit l m rest us hm hscan ih =>
    intro h2
    cases h2 with
    | nil =>
      have hnone : matchUrlAt p [] = none := rfl
      rw [hnone] at hm
      simp at hm
    | advance c cs us2 hm2 hscan2 =>
      rw [hm2] at hm
      simp at hm
    | emit _ m2 rest2 us2 hm2 hscan2 =>
      rw [hm] at hm2
      simp only [Option.some.injEq, Prod.mk.injEq] at hm2
      obtain ⟨hm3, hr3⟩ := hm2
      subst hm3
      subst hr3
      rw [ih hscan2]

/-! ## Properties of the summariser chain -/

theorem generate_simple_summary_facts (content : List Char) (url : Option (List Char))
    (hu : ∀ u, url = some u → noWsB u = true) :
    wordCount (generate_simple_summary content url) ≤ 5
    ∧ generate_simple_summary content url ≠ [] := by
  cases url with
  | none =>
    simp only [generate_simple_summary]
    by_cases hk : ((pySplit (content.map Char.toLower)).filter
        (fun w => decide (3 < w.length) && !common_words.contains w)).take 4 = []
    · rw [if_pos hk]
      exact ⟨by decide, by decide⟩
    · rw [if_neg hk]
      have hmem : ∀ w ∈ ((pySplit (content.map Char.toLower)).filter
          (fun w => decide (3 < w.length) && !common_words.contains w)).take 4,
          w ≠ [] ∧ noWsB w = true :=
        fun w hw => pySplit_mem ((List.filter_sublist _).subset (List.take_subset _ _ hw))
      constructor
      · unfold wordCount
        rw [pySplit_joinWords _ hmem, List.length_take]
        have h4 := min_le_left 4
          ((pySplit (content.map Char.toLower)).filter
            (fun w => decide (3 < w.length) && !common_words.contains w)).length
        omega
      · exact joinWords_ne_nil _ hk (fun w hw => (hmem w hw).1)
  | some u =>
    have hnu := hu u rfl
    cases hnet : urlparseNetloc u with
    | none =>
      simp only [generate_simple_summary, hnet]
      exact ⟨by decide, by decide⟩
    | some d =>
      have hd : noWsB d = true := noWsB_mono (urlparseNetloc_subset hnet) hnu
      have hdw : noWsB (pyRemove ".net".toList (pyRemove ".org".toList
          (pyRemove ".com".toList (pyRemove "www.".toList d)))) = true := by
        refine noWsB_mono (fun c hc => ?_) hd
        exact pyRemove_subset _ _ (pyRemove_subset _ _
          (pyRemove_subset _ _ (pyRemove_subset _ _ hc)))
      simp only [generate_simple_summary, hnet]
      constructor
      · have heq : (" link shared".toList : List Char) = ' ' :: "link shared".toList := rfl
        unfold wordCount
        rw [heq, pySplit_append_space hdw]
        by_cases hdw0 : pyRemove ".net".toList (pyRemove ".org".toList
            (pyRemove ".com".toList (pyRemove "www.".toList d))) = []
        · rw [if_pos hdw0]
          decide
        · rw [if_neg hdw0]
          have h2 : (pySplit "link shared".toList).length = 2 := by decide
          simp only [List.length_cons]
          omega
      · exact List.append_ne_nil_of_right_ne_nil _ (by decide)

theorem hf_chain_facts (hf : BackendResult) (content : List Char)
    (url : Option (List Char)) (hu : ∀ u, url = some u → noWsB u = true) :
    wordCount (generate_summary_with_huggingface hf content url) ≤ 5
    ∧ generate_summary_with_huggingface hf content url ≠ [] := by
  cases hf with
  | fail => exact generate_simple_summary_facts content url hu
  | ok t =>
    simp only [generate_summary_with_huggingface]
    by_cases hw : (pySplit (pyStrip t)).take 5 = []
    · rw [if_pos hw]
      exact ⟨by decide, by decide⟩
    · rw [if_neg hw]
      refine ⟨wordCount_joinWords_take (pyStrip t) 5, ?_⟩
      exact joinWords_ne_nil _ hw
        (fun w hwm => (pySplit_mem (List.take_subset _ _ hwm)).1)

theorem ollama_chain_le5 (ol oa : BackendResult) (content : List Char)
    (url : Option (List Char)) :
    wordCount (generate_summary_with_ollama ol oa content url) ≤ 5 := by
  cases ol with
  | ok t => exact wordCount_joinWords_take (pyStrip t) 5
  | fail =>
    cases oa with
    | ok t => exact wordCount_joinWords_take (pyStrip t) 5
    | fail => exact (by decide : wordCount "Summary unavailable".toList ≤ 5)

/-! ## The claims -/

/-- Claim C3, counterexample.  The spec says the chain goes primary, then the
secondary whose terminal failure text is "Summary unavailable", and only when
the secondary also fails the local deterministic fallback.  In main.py, when
both backends fail the chain answers with the secondary terminal text and the
local fallback is never consulted, while in app.py the primary failure goes
straight to the local fallback, as witnessed on a concrete message. -/
theorem claim_C3_counterexample :
    generate_summary_with_ollama BackendResult.fail BackendResult.fail
      "nice weather today friends".toList none = "Summary unavailable".toList
    ∧ generate_simple_summary "nice weather today friends".toList none
      = "nice weather today friends".toList
    ∧ "Summary unavailable".toList ≠ "nice weather today friends".toList
    ∧ generate_summary_with_huggingface BackendResult.fail
      "nice weather today friends".toList none
      = "nice weather today friends".toList := by
  decide

/-- Claim C3 (amended): in app.py the chain is HuggingFace primary and, when it
fails, directly the local deterministic fallback (the OpenAI secondary is
defined but never invoked); in main.py the chain is Ollama primary, then the
OpenAI secondary, and when the secondary also fails the chain answers the
terminal text "Summary unavailable", with no local fallback. -/
theorem claim_C3 (content : List Char) (url : Option (List Char)) (oa : BackendResult) :
    generate_summary_with_huggingface BackendResult.fail content url
      = generate_simple_summary content url
    ∧ generate_summary_with_ollama BackendResult.fail oa content url
      = generate_summary_with_openai oa content url
    ∧ generate_summary_with_openai BackendResult.fail content url
      = "Summary unavailable".toList :=
  ⟨rfl, rfl, rfl⟩

/-- Claim C5, counterexample.  The claim says only a leading "www." and the
suffixes ".com", ".org", ".net" are stripped from the host.  The code removes
every occurrence of these substrings anywhere in the host: for the extractable
url http://a.comb the host is a.comb, whose only ".com" occurrence is not a
suffix, yet the code answers "ab link shared" instead of "a.comb link shared". -/
theorem claim_C5_counterexample :
    generate_simple_summary "x".toList (some "http://a.comb".toList)
      = "ab link shared".toList
    ∧ "ab link shared".toList ≠ "a.comb link shared".toList := by
  decide

/-- Claim C5 (amended): for every url whose netloc parses, the local fallback
answers the host with every occurrence of "www.", ".com", ".org", ".net"
removed, in that order, followed by " link shared"; in particular a url with
host www.example.com gives "example link shared". -/
theorem claim_C5 (content u d : List Char) (h : urlparseNetloc u = some d) :
    generate_simple_summary content (some u)
      = pyRemove ".net".toList (pyRemove ".org".toList (pyRemove ".com".toList
          (pyRemove "www.".toList d))) ++ " link shared".toList
    ∧ generate_simple_summary content (some "http://www.example.com".toList)
      = "example link shared".toList := by
  constructor
  · simp [generate_simple_summary, h]
  · rfl

/-- Claim C5, witness at the url http://www.example.com. -/
theorem claim_C5_witness :
    urlparseNetloc "http://www.example.com".toList = some "www.example.com".toList
    ∧ (generate_simple_summary "x".toList (some "http://www.example.com".toList)
        = pyRemove ".net".toList (pyRemove ".org".toList (pyRemove ".com".toList
            (pyRemove "www.".toList "www.example.com".toList))) ++ " link shared".toList
      ∧ generate_simple_summary "x".toList (some "http://www.example.com".toList)
        = "example link shared".toList) :=
  ⟨by decide, claim_C5 "x".toList "http://www.example.com".toList
    "www.example.com".toList (by decide)⟩

/-- Claim C6, counterexample.  The stated pipeline keeps only words longer
than three characters, so the three-letter word fox of the example is dropped
and the example input yields "quick brown jumps", not "quick brown fox jumps". -/
theorem claim_C6_counterexample :
    generate_simple_summary "The quick brown fox jumps".toList none
      = "quick brown jumps".toList
    ∧ "quick brown jumps".toList ≠ "quick brown fox jumps".toList := by
  decide

/-- Claim C6 (amended): the no-url local fallback agrees with the pipeline as
the spec words it (lower-case, split, drop stop words, keep words longer than
three characters, first four, joined by spaces, else "message received"), and
the example input "The quick brown fox jumps" yields "quick brown jumps". -/
theorem claim_C6 :
    (∀ content : List Char,
      generate_simple_summary content none = specLocalSummary content)
    ∧ generate_simple_summary "The quick brown fox jumps".toList none
      = "quick brown jumps".toList := by
  constructor
  · intro content
    have h : ((pySplit (content.map Char.toLower)).filter
          (fun w => !common_words.contains w)).filter
            (fun w => decide (3 < w.length))
        = (pySplit (content.map Char.toLower)).filter
            (fun w => decide (3 < w.length) && !common_words.contains w) :=
      List.filter_filter _ _
    simp only [generate_simple_summary, specLocalSummary, h]
  · decide

/-- Claim C7, counterexample.  The claimed character set (letters, digits, the
listed symbols, percent escapes) does not contain the slash, yet on a concrete
message the extractor returns a url whose run past the scheme contains a
slash, so the extractor does not return exactly the substrings matching the
claimed pattern. -/
theorem claim_C7_counterexample :
    findUrls "go http://x.y/a now".toList = ["http://x.y/a".toList]
    ∧ specUrlChar '/' = false
    ∧ '/' ∈ ("http://x.y/a".toList.drop 7) := by
  decide

/-- Claim C7 (amended): empty input gives the empty sequence; every returned
url is a substring of the input consisting of the scheme head http:// or
https:// followed by a nonempty run of characters of the ACTUAL class of the
regex, namely letters, digits, the whole ASCII range from dollar to underscore
(which includes slash, colon, semicolon, equals, question mark and more),
bang, star and backslash.  The output is exactly the left-to-right scan the
claim describes: findUrls satisfies the UrlScan relation, which advances one
character where no match begins and emits the match and resumes after it
where one does, and that relation is deterministic, so findUrls returns
precisely the matches, in order of first appearance, duplicates preserved.
Each emitted match splits the input at its position and its run is maximal
(the remainder is empty or starts with a rejected character), as the last
general conjunct states, and the concrete repeated-url message shows the
duplicate fan-out. -/
theorem claim_C7 :
    findUrls [] = []
    ∧ (∀ (l u : List Char), u ∈ findUrls l →
        (∃ run, (u = httpsHead ++ run ∨ u = httpHead ++ run) ∧ run ≠ []
          ∧ run.all isUrlChar = true)
        ∧ u <:+: l)
    ∧ (∀ l : List Char, UrlScan isUrlChar l (findUrls l))
    ∧ (∀ (l : List Char) (us vs : List (List Char)),
        UrlScan isUrlChar l us → UrlScan isUrlChar l vs → us = vs)
    ∧ (∀ (l m rest : List Char), matchUrlAt isUrlChar l = some (m, rest) →
        l = m ++ rest ∧ ∀ c, rest.head? = some c → isUrlChar c = false)
    ∧ findUrls "a http://x.y/p?q=1 b http://x.y/p?q=1".toList
      = ["http://x.y/p?q=1".toList, "http://x.y/p?q=1".toList] := by
  refine ⟨rfl, ?_, findUrls_scan, fun l us vs h1 h2 => urlScan_unique h1 h2,
    ?_, by decide⟩
  · intro l u hu
    exact findUrlsGo_spec isUrlChar l.length l (le_refl _) u hu
  · intro l m rest hm
    exact ⟨(matchUrlAt_some hm).1, matchUrlAt_rest_head hm⟩

/-- Claim C7, witness at a concrete message and returned url. -/
theorem claim_C7_witness :
    "http://q.r".toList ∈ findUrls "go http://q.r".toList
    ∧ ((∃ run, ("http://q.r".toList = httpsHead ++ run
          ∨ "http://q.r".toList = httpHead ++ run) ∧ run ≠ []
          ∧ run.all isUrlChar = true)
      ∧ "http://q.r".toList <:+: "go http://q.r".toList) :=
  ⟨by decide, claim_C7.2.1 "go http://q.r".toList "http://q.r".toList (by decide)⟩

/-- Claim C1, counterexample.  The reply the code builds carries a leading
check-mark-and-space prefix, so it is not equal to the text the claim states. -/
theorem claim_C1_counterexample :
    (process_message (generate_summary_with_huggingface BackendResult.fail)
      "see http://x.io".toList "s".toList).2
    ≠ "Logged 1 link(s) to your spreadsheet!".toList := by
  decide

/-- Claim C1 (amended): when the extractor finds at least one url, process
makes one Link logging call per url occurrence in extraction order, with the
summary of the chain at (body, url), and the reply text is the check mark, a
space, then "Logged N link(s) to your spreadsheet!" with N the number of urls
found. -/
theorem claim_C1 (summarize : List Char → Option (List Char) → List Char)
    (message_body sender_number : List Char) (h : findUrls message_body ≠ []) :
    (process_message summarize message_body sender_number).1.length
      = (findUrls message_body).length
    ∧ (process_message summarize message_body sender_number).1.map
        (fun e => e.message_type)
      = (findUrls message_body).map (fun _ => "Link".toList)
    ∧ (process_message summarize message_body sender_number).1.map (fun e => e.url)
      = (findUrls message_body).map some
    ∧ (process_message summarize message_body sender_number).1.map (fun e => e.summary)
      = (findUrls message_body).map (fun u => summarize message_body (some u))
    ∧ (process_message summarize message_body sender_number).2
      = "✅ Logged ".toList ++ (Nat.repr (findUrls message_body).length).toList
        ++ " link(s) to your spreadsheet!".toList := by
  have hp : (process_message summarize message_body sender_number).1
      = (findUrls message_body).map (fun url =>
          { message_type := "Link".toList, content := message_body, url := some url,
            summary := summarize message_body (some url),
            sender := sender_number }) := by
    simp [process_message, h]
  have hr : (process_message summarize message_body sender_number).2
      = "✅ Logged ".toList ++ (Nat.repr (findUrls message_body).length).toList
        ++ " link(s) to your spreadsheet!".toList := by
    simp [process_message, h]
  refine ⟨?_, ?_, ?_, ?_, hr⟩
  · rw [hp, List.length_map]
  · rw [hp, List.map_map]
    exact rfl
  · rw [hp, List.map_map]
    exact rfl
  · rw [hp, List.map_map]
    exact rfl

/-- Claim C1, witness at a one-url message with the app.py chain and every
backend failing. -/
theorem claim_C1_witness :
    findUrls "see http://x.io".toList ≠ []
    ∧ ((process_message (generate_summary_with_huggingface BackendResult.fail)
          "see http://x.io".toList "s".toList).1.length
        = (findUrls "see http://x.io".toList).length
      ∧ (process_message (generate_summary_with_huggingface BackendResult.fail)
          "see http://x.io".toList "s".toList).1.map (fun e => e.message_type)
        = (findUrls "see http://x.io".toList).map (fun _ => "Link".toList)
      ∧ (process_message (generate_summary_with_huggingface BackendResult.fail)
          "see http://x.io".toList "s".toList).1.map (fun e => e.url)
        = (findUrls "see http://x.io".toList).map some
      ∧ (process_message (generate_summary_with_huggingface BackendResult.fail)
          "see http://x.io".toList "s".toList).1.map (fun e => e.summary)
        = (findUrls "see http://x.io".toList).map
            (fun u => generate_summary_with_huggingface BackendResult.fail
              "see http://x.io".toList (some u))
      ∧ (process_message (generate_summary_with_huggingface BackendResult.fail)
          "see http://x.io".toList "s".toList).2
        = "✅ Logged ".toList
          ++ (Nat.repr (findUrls "see http://x.io".toList).length).toList
          ++ " link(s) to your spreadsheet!".toList) :=
  ⟨by decide, claim_C1 (generate_summary_with_huggingface BackendResult.fail)
    "see http://x.io".toList "s".toList (by decide)⟩

/-- Claim C2, counterexample.  In main.py the chain returns the empty string
when the Ollama backend answers 200 with a whitespace-only completion, and in
app.py the local fallback of the chain exceeds five words on a url whose
netloc contains whitespace, so the claimed contract fails both in
nonemptiness and in the five-word bound. -/
theorem claim_C2_counterexample :
    generate_summary_with_ollama (BackendResult.ok []) (BackendResult.ok [])
      "hello friend".toList none = []
    ∧ 5 < wordCount (generate_summary_with_huggingface BackendResult.fail
        "note".toList (some "http://a b c d e f".toList)) := by
  decide

/-- Claim C2 (amended): both chains never raise and answer at most five
whitespace-separated words provided any url given to the app.py chain has no
whitespace; the app.py chain always answers a nonempty text under that
proviso, while the main.py chain is nonempty whenever both backends fail, the
empty answer arising only from a succeeding backend whose completion holds no
word. -/
theorem claim_C2 (hf ol oa : BackendResult) (content u : List Char) :
    wordCount (generate_summary_with_ollama ol oa content (some u)) ≤ 5
    ∧ wordCount (generate_summary_with_ollama ol oa content none) ≤ 5
    ∧ (ol = BackendResult.fail → oa = BackendResult.fail →
        generate_summary_with_ollama ol oa content none ≠ [])
    ∧ wordCount (generate_summary_with_huggingface hf content none) ≤ 5
    ∧ generate_summary_with_huggingface hf content none ≠ []
    ∧ (noWsB u = true →
        wordCount (generate_summary_with_huggingface hf content (some u)) ≤ 5
        ∧ generate_summary_with_huggingface hf content (some u) ≠ []) := by
  refine ⟨ollama_chain_le5 ol oa content (some u),
    ollama_chain_le5 ol oa content none, ?_, ?_, ?_, ?_⟩
  · intro h1 h2
    subst h1
    subst h2
    exact (by decide : ("Summary unavailable".toList : List Char) ≠ [])
  · exact (hf_chain_facts hf content none (fun x hx => nomatch hx)).1
  · exact (hf_chain_facts hf content none (fun x hx => nomatch hx)).2
  · intro hns
    exact hf_chain_facts hf content (some u) (fun x hx => by cases hx; exact hns)

/-- Claim C2, witness at concrete inputs with all backends failing. -/
theorem claim_C2_witness :
    wordCount (generate_summary_with_ollama BackendResult.fail BackendResult.fail
      "hola".toList (some "http://ab.com".toList)) ≤ 5
    ∧ generate_summary_with_ollama BackendResult.fail BackendResult.fail
      "hola".toList none ≠ []
    ∧ wordCount (generate_summary_with_huggingface BackendResult.fail
      "hola".toList (some "http://ab.com".toList)) ≤ 5
    ∧ generate_summary_with_huggingface BackendResult.fail
      "hola".toList (some "http://ab.com".toList) ≠ [] :=
  have h := claim_C2 BackendResult.fail BackendResult.fail BackendResult.fail
    "hola".toList "http://ab.com".toList
  ⟨h.1, h.2.2.1 rfl rfl, (h.2.2.2.2.2 (by decide)).1, (h.2.2.2.2.2 (by decide)).2⟩

/-- Claim C4: a message in which the extractor finds no url produces exactly
one logging call, of kind Message, and the reply contains "Message logged". -/
theorem claim_C4 (summarize : List Char → Option (List Char) → List Char)
    (message_body sender_number : List Char) (h : findUrls message_body = []) :
    (process_message summarize message_body sender_number).1
      = [{ message_type := "Message".toList, content := message_body, url := none,
           summary := summarize message_body none, sender := sender_number }]
    ∧ "Message logged".toList <:+:
        (process_message summarize message_body sender_number).2 := by
  have h2 : (process_message summarize message_body sender_number).2
      = "✅ Message logged to your spreadsheet!".toList := by
    simp [process_message, h]
  constructor
  · simp [process_message, h]
  · rw [h2]
    exact ⟨"✅ ".toList, " to your spreadsheet!".toList, by decide⟩

/-- Claim C4, witness at a concrete url-free message with the app.py chain. -/
theorem claim_C4_witness :
    findUrls "hello there".toList = []
    ∧ ((process_message (generate_summary_with_huggingface BackendResult.fail)
          "hello there".toList "s".toList).1
        = [{ message_type := "Message".toList, content := "hello there".toList,
             url := none,
             summary := generate_summary_with_huggingface BackendResult.fail
               "hello there".toList none,
             sender := "s".toList }]
      ∧ "Message logged".toList <:+:
          (process_message (generate_summary_with_huggingface BackendResult.fail)
            "hello there".toList "s".toList).2) :=
  ⟨by decide, claim_C4 (generate_summary_with_huggingface BackendResult.fail)
    "hello there".toList "s".toList (by decide)⟩

/-- Claim C8: the content field of the built row is always the first 500
characters of the content, so content longer than 500 characters is truncated
to exactly 500; the row builder is a total function, so building never
raises. -/
theorem claim_C8 (date_str time_str message_type content : List Char)
    (url : Option (List Char)) (summary sender : List Char) :
    (sheet_row date_str time_str message_type content url summary sender).content
      = content.take 500
    ∧ (500 < content.length →
        (sheet_row date_str time_str message_type content url summary
          sender).content.length = 500) := by
  refine ⟨rfl, fun h => ?_⟩
  show (content.take 500).length = 500
  rw [List.length_take]
  omega

/-- Claim C8, witness at a 501-character content. -/
theorem claim_C8_witness :
    500 < (List.replicate 501 'a').length
    ∧ (sheet_row [] [] [] (List.replicate 501 'a') none [] []).content.length
      = 500 :=
  ⟨by decide, (claim_C8 [] [] [] (List.replicate 501 'a') none [] []).2 (by decide)⟩

/-- Claim C9: an append against an unavailable sheet leaves the state
unchanged, a transport error during the append leaves the state unchanged
(the except block swallows it, so nothing is raised), and the reply of
process does not depend on the sheet state or on the append outcomes. -/
theorem claim_C9 :
    (∀ (rows : List SheetRow) (o : AppendOutcome)
        (date_str time_str message_type content : List Char)
        (url : Option (List Char)) (summary sender : List Char),
      log_to_spreadsheet ⟨false, rows⟩ o date_str time_str message_type content
        url summary sender = ⟨false, rows⟩)
    ∧ (∀ (st : SheetState) (date_str time_str message_type content : List Char)
        (url : Option (List Char)) (summary sender : List Char),
      log_to_spreadsheet st AppendOutcome.transportError date_str time_str
        message_type content url summary sender = st)
    ∧ (∀ (summarize : List Char → Option (List Char) → List Char)
        (outcomes : Nat → AppendOutcome) (date_str time_str : List Char)
        (st : SheetState) (message_body sender_number : List Char),
      (process_message_sheet summarize outcomes date_str time_str st
        message_body sender_number).2
      = (process_message summarize message_body sender_number).2) := by
  refine ⟨fun _ _ _ _ _ _ _ _ _ => rfl, ?_, ?_⟩
  · intro st date_str time_str message_type content url summary sender
    unfold log_to_spreadsheet
    split
    · rfl
    · rfl
  · intro summarize outcomes date_str time_str st message_body sender_number
    by_cases h : findUrls message_body = [] <;>
      simp [process_message_sheet, process_message, h]

/-- Claim C10: a webhook form whose Body is missing or empty, or whose From is
missing or empty, leads to no processing at all: the sheet state is unchanged,
no reply is sent, and the handler still answers 200 with the success payload,
so a success answer does not mean a message was processed. -/
theorem claim_C10 (summarize : List Char → Option (List Char) → List Char)
    (outcomes : Nat → AppendOutcome) (date_str time_str : List Char)
    (st : SheetState) (form : WebhookForm)
    (h : form.bodyField.getD [] = [] ∨ form.fromField.getD [] = []) :
    webhook summarize outcomes date_str time_str st form
      = { st := st, sent := [], status := 200, response := .success } := by
  unfold webhook
  rw [if_neg]
  rcases h with h | h
  · exact fun hc => hc.1 h
  · refine fun hc => hc.2 ?_
    show pyRemove "whatsapp:".toList (form.fromField.getD []) = []
    rw [h]
    rfl

/-- Claim C10, witness at a form with a missing Body field. -/
theorem claim_C10_witness :
    ((⟨none, some "whatsapp:+15551234".toList⟩ : WebhookForm).bodyField.getD [] = []
      ∨ (⟨none, some "whatsapp:+15551234".toList⟩ : WebhookForm).fromField.getD [] = [])
    ∧ webhook (generate_summary_with_huggingface BackendResult.fail)
        (fun _ => AppendOutcome.ok) [] [] ⟨true, []⟩
        ⟨none, some "whatsapp:+15551234".toList⟩
      = { st := ⟨true, []⟩, sent := [], status := 200,
          response := WebhookResponse.success } :=
  ⟨by decide, claim_C10 (generate_summary_with_huggingface BackendResult.fail)
    (fun _ => AppendOutcome.ok) [] [] ⟨true, []⟩
    ⟨none, some "whatsapp:+15551234".toList⟩ (by decide)⟩
